import Mathlib

/-!
Verification of the command-line-to-process-execution pipeline of `mysh.c`:
line normalization (`preprocess`), job splitting (the `strpbrk` loop in
`main`), command tokenization and builtin dispatch (`exec_command`), and the
shell's exit codes.  Character strings are modelled as `List Char` (the bytes
of a C string before its null terminator); in-place buffer mutation becomes
the value returned by the corresponding function.
-/

namespace Mysh

/-- C `isspace` in the default locale: space, tab, newline, vertical tab,
form feed, carriage return. -/
def isCSpace (c : Char) : Bool :=
  c = ' ' || c = '\t' || c = '\n' || c = '\x0b' || c = '\x0c' || c = '\r'

/-- A sequencing terminator, the character class scanned by
`strpbrk(line, ";&")` in `main`. -/
def isTerm (c : Char) : Bool :=
  c = ';' || c = '&'

/-- The backward whitespace scan of `preprocess`: the line with its maximal
run of trailing `isspace` characters removed. -/
def rtrim (s : List Char) : List Char :=
  (s.reverse.dropWhile isCSpace).reverse

/-- `preprocess` (mysh.c lines 20-37): scan from the end over whitespace.
If no non-whitespace character exists the loop falls through and the buffer
is unchanged.  If the last non-whitespace character is `;` or `&`, the null
terminator is placed right after it (result: the trimmed line).  Otherwise a
`;` and then the null terminator are placed after it (result: the trimmed
line with `;` appended). -/
def preprocess (s : List Char) : List Char :=
  match (rtrim s).getLast? with
  | none => s
  | some c => if isTerm c then rtrim s else rtrim s ++ [';']

/-- Scanning loop of the tokenizer: `strtok_r(line, " ", &line)` repeated.
`cur` accumulates (reversed) the characters of the token being read; a space
ends the current token (emitting nothing when none is open, which is how
`strtok_r` collapses consecutive delimiters). -/
def tokenizeAux : List Char → List Char → List (List Char)
  | [], cur => if cur = [] then [] else [cur.reverse]
  | c :: rest, cur =>
    if c = ' ' then
      if cur = [] then tokenizeAux rest [] else cur.reverse :: tokenizeAux rest []
    else tokenizeAux rest (c :: cur)

/-- The token sequence produced by the `strtok_r` loop of `exec_command`
(mysh.c lines 45-52): maximal nonempty runs of non-space characters.  The
delimiter set of the C call is the single character `" "`. -/
def tokenize (s : List Char) : List (List Char) :=
  tokenizeAux s []

/-- Modelled from the spec: the Command Tokenizer as the spec words it,
splitting a job's text on WHITESPACE boundaries (any `isspace` character),
collapsing consecutive separators.  Used only to compare the spec's wording
against the source tokenizer `tokenize`. -/
def tokenizeWsSpecAux : List Char → List Char → List (List Char)
  | [], cur => if cur = [] then [] else [cur.reverse]
  | c :: rest, cur =>
    if isCSpace c then
      if cur = [] then tokenizeWsSpecAux rest [] else cur.reverse :: tokenizeWsSpecAux rest []
    else tokenizeWsSpecAux rest (c :: cur)

/-- Modelled from the spec: whitespace-boundary splitting, entry point. -/
def tokenizeWsSpec (s : List Char) : List (List Char) :=
  tokenizeWsSpecAux s []

/-- The job-splitting loop of `main` (mysh.c lines 145-150): `strpbrk` finds
the next `;` or `&`; the terminator is overwritten with a null byte, so the
job's text is the prefix strictly before it, the foreground flag is
`(*next == ';')`, and scanning resumes right after the terminator.  When
`strpbrk` finds no terminator the loop ends and any leftover text is
dropped. -/
def splitJobsAux : List Char → List Char → List (List Char × Bool)
  | [], _ => []
  | c :: rest, cur =>
    if isTerm c then (cur.reverse, c = ';') :: splitJobsAux rest []
    else splitJobsAux rest (c :: cur)

/-- Job splitter over a (normalized) line: ordered `(command text,
foreground flag)` pairs. -/
def splitJobs (s : List Char) : List (List Char × Bool) :=
  splitJobsAux s []

/-- `#define MAX_ARGS 128` (mysh.c line 13): size of the `tokens` array. -/
def MAX_ARGS : Nat := 128

/-- Number of token pointers the loop stores into `tokens[0..]`: the loop
guard is `size < MAX_ARGS`, so it stops after storing `MAX_ARGS` tokens. -/
def storedTokenCount (s : List Char) : Nat :=
  min (tokenize s).length MAX_ARGS

/-- Index at which `tokens[size] = NULL` writes the sentinel after the
token-storing loop of `exec_command`. -/
def sentinelIndex (s : List Char) : Nat :=
  storedTokenCount s

/-- The diagnostic line `printf("shell: cd: %s: No such file or directory\n", ...)`
printed when `chdir` fails. -/
def cdDiag (target : List Char) : List Char :=
  ("shell: cd: ").toList ++ target ++ (": No such file or directory").toList

/-- Observable effect of one `exec_command` dispatch.  `crash` records the
null dereference of `strcmp(tokens[0], "exit")` when the token list is empty
(then `tokens[0]` is the NULL sentinel).  `exitVal` is `some code` when the
whole shell exits.  `cwdResult` is the shell's working directory afterwards.
`diags` are the diagnostic lines printed.  `spawned` holds the argv and the
foreground flag of the forked child, when one is created. -/
structure DispatchEffect where
  crash : Bool := false
  exitVal : Option Nat := none
  cwdResult : List Char := []
  diags : List (List Char) := []
  spawned : Option (List (List Char) × Bool) := none
deriving DecidableEq, Repr

/-- Builtin dispatch of `exec_command` (mysh.c lines 54-99) on the stored
token list.  `cwd` is the shell's working directory and `chdirOk` models the
`chdir` system call (true when the target directory can be entered).  An
empty token list reaches `strcmp(NULL, "exit")`: a null dereference.
`"exit"` exits the whole shell with status 0.  `"cd"` with a target changes
the directory or prints one diagnostic; with no target it does nothing;
either way it returns before the fork.  Any other command forks a child with
the token vector as its argv, waited on exactly when `is_foreground`. -/
def dispatch (cwd : List Char) (chdirOk : List Char → Bool)
    (tokens : List (List Char)) (is_foreground : Bool) : DispatchEffect :=
  match tokens with
  | [] => { crash := true, cwdResult := cwd }
  | t0 :: rest =>
    if t0 = ("exit").toList then
      { exitVal := some 0, cwdResult := cwd }
    else if t0 = ("cd").toList then
      match rest with
      | [] => { cwdResult := cwd }
      | target :: _ =>
        if chdirOk target then { cwdResult := target }
        else { cwdResult := cwd, diags := [cdDiag target] }
    else
      { cwdResult := cwd, spawned := some (t0 :: rest, is_foreground) }

/-- `exec_command` (mysh.c lines 43-99): tokenize the job's text (the stored
vector holds at most `MAX_ARGS` tokens), then dispatch. -/
def exec_command (cwd : List Char) (chdirOk : List Char → Bool)
    (line : List Char) (is_foreground : Bool) : DispatchEffect :=
  dispatch cwd chdirOk ((tokenize line).take MAX_ARGS) is_foreground

/-- The ways the `mysh` process itself terminates. -/
inductive ShellTermination
  | exitBuiltin
  | endOfInput
  | inputReadFailure
  | fileOpenFailure
  | streamSubstFailure
  | forkFailure
deriving DecidableEq, Repr

/-- Exit code of each termination path of `main` and `exec_command`:
`exit(0)` for the `exit` builtin, `return 0` on end of input, `exit(2)` on
a `getline` failure with `errno == EINVAL`, `exit(1)` when the startup file
cannot be opened, `exit(2)` when `dup2` fails, `exit(EXIT_FAILURE)` (1) when
`fork` fails. -/
def exitCode : ShellTermination → Nat
  | .exitBuiltin => 0
  | .endOfInput => 0
  | .inputReadFailure => 2
  | .fileOpenFailure => 1
  | .streamSubstFailure => 2
  | .forkFailure => 1

/-- A job text made of `n` single-character tokens: `"a a a ... a "`. -/
def manyTokens : Nat → List Char
  | 0 => []
  | n + 1 => 'a' :: ' ' :: manyTokens n

/-! ## Helper lemmas -/

theorem isTerm_not_space {c : Char} (hc : isTerm c = true) : isCSpace c = false := by
  have h : c = ';' ∨ c = '&' := by simpa [isTerm] using hc
  rcases h with h | h <;> subst h <;> decide

theorem rtrim_eq_self_of_getLast (s : List Char) (c : Char)
    (h : s.getLast? = some c) (hc : isCSpace c = false) : rtrim s = s := by
  have h1 : s.reverse.head? = some c := by rw [List.head?_reverse, h]
  cases hs : s.reverse with
  | nil => rw [hs] at h1; cases h1
  | cons a t =>
    rw [hs] at h1
    have ha : a = c := by simpa using h1
    subst ha
    unfold rtrim
    rw [hs, List.dropWhile_cons_of_neg (by simp [hc]), ← hs, List.reverse_reverse]

theorem preprocess_eq_of_none (s : List Char) (h : (rtrim s).getLast? = none) :
    preprocess s = s := by
  unfold preprocess; rw [h]

theorem preprocess_eq_of_term (s : List Char) (c : Char)
    (h : (rtrim s).getLast? = some c) (hc : isTerm c = true) :
    preprocess s = rtrim s := by
  unfold preprocess; rw [h]; simp [hc]

theorem preprocess_eq_of_not_term (s : List Char) (c : Char)
    (h : (rtrim s).getLast? = some c) (hc : isTerm c = false) :
    preprocess s = rtrim s ++ [';'] := by
  unfold preprocess; rw [h]; simp [hc]

theorem rtrim_decomp (s : List Char) :
    s = rtrim s ++ (s.reverse.takeWhile isCSpace).reverse := by
  conv_lhs => rw [← List.reverse_reverse s,
    ← List.takeWhile_append_dropWhile isCSpace s.reverse]
  rw [List.reverse_append]
  rfl

theorem splitJobsAux_append (a b : List Char) (c : Char) (cur : List Char)
    (ha : ∀ x ∈ a, isTerm x = false) (hc : isTerm c = true) :
    splitJobsAux (a ++ c :: b) cur =
      (cur.reverse ++ a, decide (c = ';')) :: splitJobsAux b [] := by
  induction a generalizing cur with
  | nil => simp [splitJobsAux, hc]
  | cons x xs ih =>
    have hx : isTerm x = false := ha x (List.mem_cons_self x xs)
    have step : splitJobsAux ((x :: xs) ++ c :: b) cur = splitJobsAux (xs ++ c :: b) (x :: cur) := by
      simp [splitJobsAux, hx]
    rw [step, ih _ (fun y hy => ha y (List.mem_cons_of_mem _ hy))]
    simp

theorem tokenizeAux_mem (s : List Char) (cur t : List Char)
    (hcur : ' ' ∉ cur) (ht : t ∈ tokenizeAux s cur) : t ≠ [] ∧ ' ' ∉ t := by
  induction s generalizing cur with
  | nil =>
    simp only [tokenizeAux] at ht
    by_cases h : cur = []
    · simp [h] at ht
    · rw [if_neg h] at ht
      have h1 : t = cur.reverse := by simpa using ht
      subst h1
      exact ⟨by simpa using h, by simpa using hcur⟩
  | cons c rest ih =>
    simp only [tokenizeAux] at ht
    by_cases hc : c = ' '
    · rw [if_pos hc] at ht
      by_cases h : cur = []
      · rw [if_pos h] at ht
        exact ih [] (by simp) ht
      · rw [if_neg h] at ht
        rcases List.mem_cons.mp ht with h1 | h1
        · subst h1
          exact ⟨by simpa using h, by simpa using hcur⟩
        · exact ih [] (by simp) h1
    · rw [if_neg hc] at ht
      refine ih (c :: cur) ?_ ht
      intro hmem
      rcases List.mem_cons.mp hmem with h1 | h1
      · exact hc h1.symm
      · exact hcur h1

/-! ## Claim theorems -/

/-- C1: an empty job (as produced between consecutive terminators, e.g. the
line `";;"`) tokenizes to zero arguments, and dispatching it is NOT a no-op:
`tokens[0]` is the NULL sentinel and `strcmp(tokens[0], "exit")` dereferences
it — the dispatcher crashes instead of ignoring the job. -/
theorem C1_empty_job_null_deref :
    preprocess ((";;").toList) = (";;").toList ∧
    splitJobs ((";;").toList) = [([], true), ([], true)] ∧
    tokenize [] = [] ∧
    (exec_command [] (fun _ => false) [] true).crash = true ∧
    (dispatch [] (fun _ => false) [] true).crash = true := by
  decide

/-- C2: the Job Splitter ends one job per matched terminator, with foreground
flag true for `;` and false for `&`, the job text being the prefix before the
terminator (the byte the null terminator overwrites) and scanning resuming
right after it; in particular `"echo a;echo b&"` yields exactly
`("echo a", true)` then `("echo b", false)`. -/
theorem C2_split_jobs (a b : List Char) (c : Char)
    (ha : ∀ x ∈ a, isTerm x = false) :
    (c = ';' → splitJobs (a ++ c :: b) = (a, true) :: splitJobs b) ∧
    (c = '&' → splitJobs (a ++ c :: b) = (a, false) :: splitJobs b) ∧
    splitJobs (("echo a;echo b&").toList) =
      [(("echo a").toList, true), (("echo b").toList, false)] := by
  refine ⟨?_, ?_, by decide⟩
  · intro hcs
    subst hcs
    unfold splitJobs
    rw [splitJobsAux_append a b ';' [] ha (by decide)]
    simp
  · intro hcs
    subst hcs
    unfold splitJobs
    rw [splitJobsAux_append a b '&' [] ha (by decide)]
    simp

/-- Witness for C2 at the concrete job text `"ls"` with terminator `;`. -/
theorem C2_split_jobs_witness :
    (∀ x ∈ ("ls").toList, isTerm x = false) ∧
    ((';' = ';' → splitJobs (("ls").toList ++ ';' :: []) = (("ls").toList, true) :: splitJobs []) ∧
     (';' = '&' → splitJobs (("ls").toList ++ ';' :: []) = (("ls").toList, false) :: splitJobs []) ∧
     splitJobs (("echo a;echo b&").toList) =
       [(("echo a").toList, true), (("echo b").toList, false)]) :=
  ⟨by decide, C2_split_jobs ("ls").toList [] ';' (by decide)⟩

/-- C3: a line that ends in whitespace and whose last non-whitespace
character is not a terminator normalizes to that line with all trailing
whitespace removed (the removed suffix is exactly the maximal whitespace
suffix) followed by a single appended `;`; in particular `"ls  "`
normalizes to `"ls;"`. -/
theorem C3_trailing_ws_appends_semicolon (s : List Char) (c l : Char)
    (hlast : s.getLast? = some l) (hws : isCSpace l = true)
    (h : (rtrim s).getLast? = some c) (hc : isTerm c = false) :
    preprocess s = rtrim s ++ [';'] ∧
    s = rtrim s ++ (s.reverse.takeWhile isCSpace).reverse ∧
    (∀ x ∈ s.reverse.takeWhile isCSpace, isCSpace x = true) ∧
    preprocess (("ls  ").toList) = ("ls;").toList := by
  refine ⟨preprocess_eq_of_not_term s c h hc, rtrim_decomp s,
    fun x hx => List.mem_takeWhile_imp hx, by decide⟩

/-- Witness for C3 at the concrete line `"ls  "`. -/
theorem C3_trailing_ws_witness :
    preprocess (("ls  ").toList) = rtrim (("ls  ").toList) ++ [';'] ∧
    ("ls  ").toList =
      rtrim (("ls  ").toList) ++ ((("ls  ").toList).reverse.takeWhile isCSpace).reverse ∧
    (∀ x ∈ (("ls  ").toList).reverse.takeWhile isCSpace, isCSpace x = true) ∧
    preprocess (("ls  ").toList) = ("ls;").toList :=
  C3_trailing_ws_appends_semicolon (("ls  ").toList) 's' ' '
    (by decide) (by decide) (by decide) (by decide)

/-- C4 counterexample: the claim's concrete example is false — `"ls &"`
normalizes to itself (the interior space before `&` is kept), not to
`"ls&"`. -/
theorem C4_counterexample :
    preprocess (("ls &").toList) = ("ls &").toList ∧
    preprocess (("ls &").toList) ≠ ("ls&").toList := by
  decide

/-- C4 (amended): when the last non-whitespace character is already a
terminator, normalization truncates immediately after it and appends no
second terminator, removing only the whitespace AFTER the terminator;
whitespace before the terminator is kept, so `"ls &"` normalizes unchanged
while `"ls& "` normalizes to `"ls&"`. -/
theorem C4_terminator_no_second (s : List Char) (c : Char)
    (h : (rtrim s).getLast? = some c) (hc : isTerm c = true) :
    preprocess s = rtrim s ∧
    (preprocess s).getLast? = some c ∧
    preprocess (("ls &").toList) = ("ls &").toList ∧
    preprocess (("ls& ").toList) = ("ls&").toList := by
  have hp := preprocess_eq_of_term s c h hc
  exact ⟨hp, by rw [hp]; exact h, by decide, by decide⟩

/-- Witness for C4 at the concrete line `"ls& "`. -/
theorem C4_terminator_witness :
    preprocess (("ls& ").toList) = rtrim (("ls& ").toList) ∧
    (preprocess (("ls& ").toList)).getLast? = some '&' ∧
    preprocess (("ls &").toList) = ("ls &").toList ∧
    preprocess (("ls& ").toList) = ("ls&").toList :=
  C4_terminator_no_second (("ls& ").toList) '&' (by decide) (by decide)

/-- C5 counterexample: the tokenizer does NOT split on whitespace
boundaries — the delimiter set of `strtok_r` is the single space character.
On `"echo\tb"` the source tokenizer returns one token containing the tab,
while splitting on whitespace boundaries (the spec-worded tokenizer) returns
two tokens. -/
theorem C5_counterexample :
    tokenize (("echo\tb").toList) = [("echo\tb").toList] ∧
    tokenizeWsSpec (("echo\tb").toList) = [("echo").toList, ("b").toList] ∧
    tokenize (("echo\tb").toList) ≠ tokenizeWsSpec (("echo\tb").toList) ∧
    isCSpace '\t' = true := by
  decide

/-- C5 (amended): the tokenizer splits on SPACE (`' '`) boundaries only,
collapsing consecutive spaces so that no empty token is produced and no
token contains a space; tokenizing `"echo   a  b"` yields exactly
`["echo","a","b"]`. -/
theorem C5_tokenize_spaces (s t : List Char) (ht : t ∈ tokenize s) :
    t ≠ [] ∧ ' ' ∉ t ∧
    tokenize (("echo   a  b").toList) =
      [("echo").toList, ("a").toList, ("b").toList] := by
  have h := tokenizeAux_mem s [] t (by simp) ht
  exact ⟨h.1, h.2, by decide⟩

/-- Witness for C5 at the concrete job text `"echo   a  b"`. -/
theorem C5_tokenize_witness :
    ("echo").toList ∈ tokenize (("echo   a  b").toList) ∧
    (("echo").toList ≠ [] ∧ ' ' ∉ ("echo").toList ∧
     tokenize (("echo   a  b").toList) =
       [("echo").toList, ("a").toList, ("b").toList]) :=
  ⟨by decide, C5_tokenize_spaces (("echo   a  b").toList) (("echo").toList) (by decide)⟩

set_option maxRecDepth 100000 in
/-- C6: with 128 space-separated tokens the storing loop fills all 128 slots
of the `tokens` array and the sentinel assignment `tokens[size] = NULL`
writes at index 128 — outside the 128-slot array (valid indices are
`0..127`), contradicting the claim that at most 127 real tokens are stored
with the sentinel inside the final slot. -/
theorem C6_sentinel_out_of_bounds :
    (tokenize (manyTokens 128)).length = 128 ∧
    storedTokenCount (manyTokens 128) = MAX_ARGS ∧
    sentinelIndex (manyTokens 128) = 128 ∧
    ¬ sentinelIndex (manyTokens 128) < MAX_ARGS := by
  decide

/-- C7 counterexample: the three fatal exit codes are not pairwise
distinct — input-read failure (`exit(2)` on `getline`/`EINVAL`) and
stream-substitution failure (`exit(2)` on `dup2`) share the code 2. -/
theorem C7_counterexample :
    exitCode ShellTermination.inputReadFailure =
      exitCode ShellTermination.streamSubstFailure ∧
    exitCode ShellTermination.inputReadFailure ≠ 0 := by
  decide

/-- C7 (amended): the exit code is 0 exactly on the termination builtin or
clean end-of-input; the three fatal conditions each exit non-zero, and the
startup file-open failure code (1) differs from the other two, but
input-read failure and stream-substitution failure share the same code
(2). -/
theorem C7_exit_codes :
    (∀ t, exitCode t = 0 ↔
      (t = ShellTermination.exitBuiltin ∨ t = ShellTermination.endOfInput)) ∧
    exitCode ShellTermination.inputReadFailure ≠ 0 ∧
    exitCode ShellTermination.fileOpenFailure ≠ 0 ∧
    exitCode ShellTermination.streamSubstFailure ≠ 0 ∧
    exitCode ShellTermination.fileOpenFailure ≠
      exitCode ShellTermination.inputReadFailure ∧
    exitCode ShellTermination.fileOpenFailure ≠
      exitCode ShellTermination.streamSubstFailure ∧
    exitCode ShellTermination.inputReadFailure =
      exitCode ShellTermination.streamSubstFailure := by
  refine ⟨fun t => ?_, by decide, by decide, by decide, by decide, by decide, by decide⟩
  cases t <;> decide

/-- C8: the directory-change builtin with a target that cannot be entered
leaves the working directory unchanged, emits exactly the one diagnostic
line naming the target, spawns no child, and neither exits nor crashes (the
read loop continues); with no target argument it is a no-op. -/
theorem C8_cd_failure (cwd target : List Char) (rest : List (List Char))
    (chdirOk : List Char → Bool) (fg : Bool) (hfail : chdirOk target = false) :
    (dispatch cwd chdirOk (("cd").toList :: target :: rest) fg).cwdResult = cwd ∧
    (dispatch cwd chdirOk (("cd").toList :: target :: rest) fg).diags = [cdDiag target] ∧
    (dispatch cwd chdirOk (("cd").toList :: target :: rest) fg).spawned = none ∧
    (dispatch cwd chdirOk (("cd").toList :: target :: rest) fg).exitVal = none ∧
    (dispatch cwd chdirOk (("cd").toList :: target :: rest) fg).crash = false ∧
    dispatch cwd chdirOk [("cd").toList] fg =
      { cwdResult := cwd, crash := false, exitVal := none, diags := [], spawned := none } := by
  simp [dispatch, hfail]

/-- Witness for C8 with a `chdir` model on which every target fails. -/
theorem C8_cd_failure_witness :
    (fun _ : List Char => false) (("nope").toList) = false ∧
    ((dispatch (("/h").toList) (fun _ => false)
        (("cd").toList :: ("nope").toList :: []) true).cwdResult = ("/h").toList ∧
     (dispatch (("/h").toList) (fun _ => false)
        (("cd").toList :: ("nope").toList :: []) true).diags = [cdDiag (("nope").toList)] ∧
     (dispatch (("/h").toList) (fun _ => false)
        (("cd").toList :: ("nope").toList :: []) true).spawned = none ∧
     (dispatch (("/h").toList) (fun _ => false)
        (("cd").toList :: ("nope").toList :: []) true).exitVal = none ∧
     (dispatch (("/h").toList) (fun _ => false)
        (("cd").toList :: ("nope").toList :: []) true).crash = false ∧
     dispatch (("/h").toList) (fun _ => false) [("cd").toList] true =
       { cwdResult := ("/h").toList, crash := false, exitVal := none,
         diags := [], spawned := none }) :=
  ⟨rfl, C8_cd_failure (("/h").toList) (("nope").toList) [] (fun _ => false) true rfl⟩

/-- C9: normalization is idempotent — `preprocess (preprocess s) =
preprocess s` for every line `s`. -/
theorem C9_preprocess_idempotent (s : List Char) :
    preprocess (preprocess s) = preprocess s := by
  cases h : (rtrim s).getLast? with
  | none =>
    rw [preprocess_eq_of_none s h, preprocess_eq_of_none s h]
  | some c =>
    cases hc : isTerm c with
    | true =>
      rw [preprocess_eq_of_term s c h hc]
      have hr : rtrim (rtrim s) = rtrim s :=
        rtrim_eq_self_of_getLast _ c h (isTerm_not_space hc)
      rw [preprocess_eq_of_term (rtrim s) c (by rw [hr]; exact h) hc, hr]
    | false =>
      rw [preprocess_eq_of_not_term s c h hc]
      have h2 : (rtrim s ++ [';']).getLast? = some ';' := List.getLast?_concat _
      have hr : rtrim (rtrim s ++ [';']) = rtrim s ++ [';'] :=
        rtrim_eq_self_of_getLast _ ';' h2 (by decide)
      rw [preprocess_eq_of_term (rtrim s ++ [';']) ';' (by rw [hr]; exact h2) (by decide), hr]

/-- C10: builtin interception ignores the foreground flag — dispatch of an
`exit` or `cd` job is identical for any two flag values; an `exit` job exits
the whole shell with status 0 even when marked background (the line
`"exit&"` end-to-end), and a background `cd` changes the shell's own working
directory (or prints the diagnostic) with no child created. -/
theorem C10_builtins_ignore_flag (cwd target : List Char)
    (chdirOk : List Char → Bool) (toks rest : List (List Char)) (fg fg2 : Bool)
    (hhead : toks.head? = some (("exit").toList) ∨ toks.head? = some (("cd").toList)) :
    dispatch cwd chdirOk toks fg = dispatch cwd chdirOk toks fg2 ∧
    (dispatch cwd chdirOk (("exit").toList :: rest) fg).exitVal = some 0 ∧
    (dispatch cwd chdirOk (("exit").toList :: rest) fg).spawned = none ∧
    (dispatch cwd chdirOk (("cd").toList :: target :: rest) false).spawned = none ∧
    (chdirOk target = true →
      (dispatch cwd chdirOk (("cd").toList :: target :: rest) false).cwdResult = target) ∧
    (chdirOk target = false →
      (dispatch cwd chdirOk (("cd").toList :: target :: rest) false).diags = [cdDiag target]) ∧
    preprocess (("exit&").toList) = ("exit&").toList ∧
    splitJobs (("exit&").toList) = [(("exit").toList, false)] ∧
    (exec_command cwd chdirOk (("exit").toList) false).exitVal = some 0 ∧
    (exec_command cwd chdirOk (("exit").toList) false).spawned = none := by
  refine ⟨?_, by simp [dispatch], by simp [dispatch], ?_,
    fun hok => by simp [dispatch, hok], fun hok => by simp [dispatch, hok],
    by decide, by decide, rfl, rfl⟩
  · cases toks with
    | nil => cases hhead with
      | inl h => cases h
      | inr h => cases h
    | cons t0 ts =>
      rcases hhead with h | h
      · have ht : t0 = ("exit").toList := by simpa using h
        subst ht
        rfl
      · have ht : t0 = ("cd").toList := by simpa using h
        subst ht
        rfl
  · cases hok : chdirOk target <;> simp [dispatch, hok]

/-- Witness for C10 at the background `exit` job of the line `"exit&"`. -/
theorem C10_builtins_witness :
    ([("exit").toList].head? = some (("exit").toList) ∨
     [("exit").toList].head? = some (("cd").toList)) ∧
    (dispatch [] (fun _ => false) [("exit").toList] false =
       dispatch [] (fun _ => false) [("exit").toList] true ∧
     (dispatch [] (fun _ => false) (("exit").toList :: []) false).exitVal = some 0 ∧
     (dispatch [] (fun _ => false) (("exit").toList :: []) false).spawned = none ∧
     (dispatch [] (fun _ => false) (("cd").toList :: ("x").toList :: []) false).spawned = none ∧
     ((fun _ : List Char => false) (("x").toList) = true →
       (dispatch [] (fun _ => false)
         (("cd").toList :: ("x").toList :: []) false).cwdResult = ("x").toList) ∧
     ((fun _ : List Char => false) (("x").toList) = false →
       (dispatch [] (fun _ => false)
         (("cd").toList :: ("x").toList :: []) false).diags = [cdDiag (("x").toList)]) ∧
     preprocess (("exit&").toList) = ("exit&").toList ∧
     splitJobs (("exit&").toList) = [(("exit").toList, false)] ∧
     (exec_command [] (fun _ => false) (("exit").toList) false).exitVal = some 0 ∧
     (exec_command [] (fun _ => false) (("exit").toList) false).spawned = none) :=
  ⟨Or.inl rfl, C10_builtins_ignore_flag [] (("x").toList) (fun _ => false)
    [("exit").toList] [] false true (Or.inl rfl)⟩

end Mysh
